import Mathlib

/-!
Verification development for the cloud-resource-operator sources:
* `pkg/providers/config.go` — the ConfigMap-backed strategy config manager,
* `pkg/providers/aws/provider_blobstorage.go` — the AWS S3 blob-storage provider,
* the azure Postgres provider stub.

The Go code is shallowly embedded: pure computations become Lean functions,
external calls (Kubernetes client, credential manager, AWS S3 SDK) become
explicit environments of call outcomes, and each workflow returns its result
together with the ordered trace of external calls it issued and the final
request object.
-/

namespace CRO

/-- `errorUtil.Wrapf` / `errorUtil.Wrap` from github.com/pkg/errors: the wrapped
error's message is the annotation, a colon and a space, then the cause. -/
def wrapf (msg err : String) : String := msg ++ ": " ++ err

/-! ## A flat JSON-object decoder

`encoding/json`'s behaviour on the documents this repository stores: the
strategy documents are flat JSON objects whose values are strings.  We embed a
decoder for exactly that shape.  `json.Unmarshal` into a Go struct matches an
object key to a field tag preferring an exact match, falling back to a
case-insensitive match, and leaves fields whose key is absent at their zero
value (the empty string). -/

/-- Skip JSON whitespace. -/
def skipWs : List Char → List Char
  | [] => []
  | c :: cs => if c = ' ' ∨ c = '\t' ∨ c = '\n' ∨ c = '\r' then skipWs cs else c :: cs

/-- Consume the body of a JSON string up to the closing quote (the documents
this repository stores contain no escape sequences). -/
def parseStringBody : List Char → Option (List Char × List Char)
  | [] => none
  | c :: cs =>
    if c = '"' then some ([], cs)
    else
      match parseStringBody cs with
      | some (s, rest) => some (c :: s, rest)
      | none => none

/-- Parse `"key" : "value"` pairs separated by commas, up to and including the
closing brace.  `fuel` bounds the recursion. -/
def parsePairs : Nat → List Char → Option (List (String × String) × List Char)
  | 0, _ => none
  | fuel + 1, input =>
    match skipWs input with
    | '"' :: cs =>
      match parseStringBody cs with
      | none => none
      | some (k, rest) =>
        match skipWs rest with
        | ':' :: rest2 =>
          match skipWs rest2 with
          | '"' :: cs2 =>
            match parseStringBody cs2 with
            | none => none
            | some (v, rest3) =>
              match skipWs rest3 with
              | ',' :: rest4 =>
                match parsePairs fuel rest4 with
                | some (ps, r) => some ((String.mk k, String.mk v) :: ps, r)
                | none => none
              | '}' :: rest4 => some ([(String.mk k, String.mk v)], rest4)
              | _ => none
          | _ => none
        | _ => none
    | _ => none

/-- Decode a flat JSON object of string keys and string values; `none` models a
`json.Unmarshal` decode error. -/
def jsonObject? (s : String) : Option (List (String × String)) :=
  match skipWs s.data with
  | '{' :: rest =>
    match skipWs rest with
    | '}' :: tail => if (skipWs tail).isEmpty then some [] else none
    | _ =>
      match parsePairs (s.length + 1) rest with
      | some (ps, tail) => if (skipWs tail).isEmpty then some ps else none
      | none => none
  | _ => none

/-- ASCII lower-casing of one character (the keys this repository stores are
ASCII). -/
def charToLower (c : Char) : Char :=
  if 'A' ≤ c ∧ c ≤ 'Z' then Char.ofNat (c.toNat + 32) else c

/-- ASCII lower-casing of a string. -/
def strToLower (s : String) : String := String.mk (s.data.map charToLower)

/-- `json.Unmarshal`'s struct-field matching: prefer the exact key, fall back
to a case-insensitive match. -/
def lookupField (ps : List (String × String)) (tag : String) : Option String :=
  match ps.find? (fun p => p.1 == tag) with
  | some p => some p.2
  | none => (ps.find? (fun p => strToLower p.1 == strToLower tag)).map Prod.snd

/-! ## `pkg/providers/config.go` -/

/-- `DeploymentStrategyMapping` with json tags `blobstorage`, `smtpCredentials`,
`redis`, `postgres`. -/
structure DeploymentStrategyMapping where
  blobStorage : String
  smtpCredentials : String
  redis : String
  postgres : String
deriving DecidableEq, Repr

/-- `json.Unmarshal` of a stored document into `DeploymentStrategyMapping`:
fails when the document is not a valid JSON object, otherwise fills each field
from its tag's key (exact, else case-insensitive) and leaves absent fields as
the zero value `""`. -/
def unmarshalDeploymentStrategyMapping (doc : String) :
    Except String DeploymentStrategyMapping :=
  match jsonObject? doc with
  | none => .error "invalid JSON document"
  | some ps =>
    .ok { blobStorage := (lookupField ps "blobstorage").getD ""
          smtpCredentials := (lookupField ps "smtpCredentials").getD ""
          redis := (lookupField ps "redis").getD ""
          postgres := (lookupField ps "postgres").getD "" }

/-- A ConfigMap's `Data` field: string keys to string values. -/
abbrev ConfigMapData := List (String × String)

/-- Go map indexing `cm.Data[t]`: the zero value `""` when the key is absent. -/
def mapIndex (d : ConfigMapData) (k : String) : String :=
  ((d.find? (fun p => p.1 == k)).map Prod.snd).getD ""

/-- `buildDefaultConfigMap`'s `Data` (config.go lines 70-81), the two seeded
JSON documents copied verbatim. -/
def buildDefaultConfigMap : ConfigMapData :=
  [("managed",
    "\x7b\"blobstorage\":\"aws\", \"smtpcredentials\": \"aws\", \"redis\":\"aws\", \"postgres\":\"aws\"\x7d"),
   ("workshop",
    "\x7b\"blobstorage\":\"aws\", \"smtpcredentials\": \"aws\", \"redis\":\"openshift\", \"postgres\":\"openshift\"\x7d")]

/-- Modelled from the spec: `resources.GetConfigMapOrDefault` (in
`pkg/resources`, not among the given sources) "resolves or lazily creates a
default Strategy Store entry when none configured".  The store is `none` when
no ConfigMap exists; the API-unreachable error path is outside this model. -/
def getConfigMapOrDefault (store : Option ConfigMapData) (dflt : ConfigMapData) :
    ConfigMapData :=
  store.getD dflt

/-- `ConfigMapConfigManager.GetStrategyMappingForDeploymentType`
(config.go lines 58-68): read the ConfigMap or the seeded default, index the
deployment type's document, decode it. -/
def getStrategyMappingForDeploymentType (store : Option ConfigMapData) (t : String) :
    Except String DeploymentStrategyMapping :=
  let cm := getConfigMapOrDefault store buildDefaultConfigMap
  match unmarshalDeploymentStrategyMapping (mapIndex cm t) with
  | .error e => .error (wrapf ("failed to unmarshal config for deployment type " ++ t) e)
  | .ok dsm => .ok dsm

deriving instance DecidableEq for Except

/-! ## `pkg/providers/aws/provider_blobstorage.go` -/

/-- Modelled from the spec: `providers.AWSDeploymentStrategy` (defined outside
the given sources), the provider-name string `"aws"`. -/
def AWSDeploymentStrategy : String := "aws"

/-- Modelled from the spec: the provider-specific finalizer marker
`DefaultFinalizer` (defined outside the given sources); its exact token is
immaterial to the claims. -/
def DefaultFinalizer : String := "finalizers.cloud-resources-operator.integreatly.org"

/-- Modelled from the spec: `DefaultRegion`, the provider's default region
constant (defined outside the given sources); its exact value is immaterial to
the claims. -/
def DefaultRegion : String := "eu-west-1"

/-- The AWS SDK constant `s3.ErrCodeNoSuchBucket` (external library). -/
def ErrCodeNoSuchBucket : String := "NoSuchBucket"

/-- Kubernetes object metadata, restricted to the fields this code reads and
writes: name, namespace, finalizer list, deletion timestamp. -/
structure ObjectMeta where
  name : String
  nspace : String
  finalizers : List String
  deletionTimestamp : Option String
deriving DecidableEq, Repr

/-- A `BlobStorage` request object: metadata plus `Spec.Tier`. -/
structure BlobStorage where
  meta : ObjectMeta
  tier : String
deriving DecidableEq, Repr

/-- Modelled from the spec: `resources.AddFinalizer` (in `pkg/resources`, not
among the given sources) attaches the finalizer marker to the request's
marker list when not already present. -/
def addFinalizer (m : ObjectMeta) (f : String) : ObjectMeta :=
  if f ∈ m.finalizers then m else { m with finalizers := m.finalizers ++ [f] }

/-- Modelled from the spec: `resources.RemoveFinalizer` (in `pkg/resources`,
not among the given sources) removes the finalizer marker from the request's
marker list. -/
def removeFinalizer (m : ObjectMeta) (f : String) : ObjectMeta :=
  { m with finalizers := m.finalizers.filter (fun x => x != f) }

/-- AWS credentials as issued by the credential manager. -/
structure Credentials where
  accessKeyID : String
  secretAccessKey : String
deriving DecidableEq, Repr

/-- `StrategyConfig`: region plus the raw (uninterpreted) strategy JSON. -/
structure StrategyConfig where
  region : String
  rawStrategy : String
deriving DecidableEq, Repr

/-- `s3.CreateBucketInput`, restricted to the one field this code reads: the
optional bucket name (`nil` pointer becomes `none`). -/
structure CreateBucketInput where
  bucket : Option String
deriving DecidableEq, Repr

/-- `json.Unmarshal` of the raw strategy into `s3.CreateBucketInput`: the
`Bucket` field is matched by field name (exact, else case-insensitive); an
absent key leaves the pointer `nil`. -/
def unmarshalCreateBucketInput (doc : String) : Except String CreateBucketInput :=
  match jsonObject? doc with
  | none => .error "invalid JSON document"
  | some ps => .ok ⟨lookupField ps "Bucket"⟩

/-- `BlobStorageDeploymentDetails`: provider-specific details about the bucket. -/
structure BlobStorageDeploymentDetails where
  bucketName : String
  credentialKeyID : String
  credentialSecretKey : String
deriving DecidableEq, Repr

/-- `BlobStorageDeploymentDetails.Data()`. -/
def BlobStorageDeploymentDetails.data (d : BlobStorageDeploymentDetails) :
    List (String × String) :=
  [("bucketName", d.bucketName),
   ("credentialKeyID", d.credentialKeyID),
   ("credentialSecretKey", d.credentialSecretKey)]

/-- `providers.BlobStorageInstance`. -/
structure BlobStorageInstance where
  deploymentDetails : BlobStorageDeploymentDetails
deriving DecidableEq, Repr

/-- `BlobStorageProvider.GetName` (provider_blobstorage.go lines 73-75). -/
def BlobStorageProviderGetName : String := AWSDeploymentStrategy

/-- `BlobStorageProvider.SupportsStrategy` (provider_blobstorage.go lines
77-79). -/
def BlobStorageProviderSupportsStrategy (d : String) : Bool :=
  d == AWSDeploymentStrategy

/-- One external call issued by the create/delete workflows, in issue order. -/
inductive Event where
  | updateRequest (finalizers : List String)
  | reconcileBucketOwnerCredentials (name nspace bucket : String)
  | reconcileProviderCredentials (nspace : String)
  | listBuckets
  | createBucket (bucket : String)
  | deleteBucket (bucket : String)
  | waitUntilBucketNotExists (bucket : String)
  | deleteCredentialRequest (name nspace : String)
deriving DecidableEq, Repr

/-- Outcomes of the external calls `CreateStorage` issues: the Kubernetes
`Client.Update`, the credential manager (interface declared outside the given
sources; modelled from the spec as returning credentials or an error), and the
AWS S3 SDK.  `listBuckets n` is the outcome of the n-th `ListBuckets` attempt
(`none` models a call error, `some` the listed bucket names). -/
structure CreateEnv where
  clientUpdate : Except String Unit
  readBlobStorageStrategy : Except String StrategyConfig
  reconcileBucketOwnerCredentials : Except String Credentials
  reconcileProviderCredentials : Except String Credentials
  listBuckets : Nat → Option (List String)
  createBucket : Except String Unit

/-- Result of one `CreateStorage` run: the returned value, the ordered trace
of external calls, and the request object as left by the run. -/
structure CreateOutcome where
  result : Except String BlobStorageInstance
  trace : List Event
  request : BlobStorage
deriving Repr

/-- `wait.PollImmediate(time.Second*5, time.Minute*5, ...)`: the poll interval
in seconds (`time.Second*5`). -/
def pollInterval : Nat := 5

/-- The poll ceiling in seconds (`time.Minute*5`). -/
def pollCeiling : Nat := 5 * 60

/-- The number of listing attempts within the ceiling window: an immediate
attempt at time 0 plus one per interval tick while time `≤` ceiling. -/
def maxPollAttempts : Nat := pollCeiling / pollInterval + 1

/-- `wait.PollImmediate` specialised to the listing loop (provider
 lines 129-136): try attempt `n`, stop at the first success; return
the result and the number of attempts made. -/
def pollList (f : Nat → Option (List String)) : Nat → Nat → Option (List String) × Nat
  | 0, _ => (none, 0)
  | fuel + 1, n =>
    match f n with
    | some l => (some l, 1)
    | none =>
      let r := pollList f fuel (n + 1)
      (r.1, r.2 + 1)

/-- `getS3BucketConfig` (provider_blobstorage.go lines 242-258): read the
blob-storage strategy for the tier, default the region when empty, decode the
raw strategy into an `s3.CreateBucketInput`. -/
def getS3BucketConfig (readStrategy : Except String StrategyConfig) :
    Except String (CreateBucketInput × StrategyConfig) :=
  match readStrategy with
  | .error e => .error (wrapf "failed to read aws strategy config" e)
  | .ok stratCfg0 =>
    let stratCfg :=
      if stratCfg0.region = "" then { stratCfg0 with region := DefaultRegion }
      else stratCfg0
    match unmarshalCreateBucketInput stratCfg.rawStrategy with
    | .error e => .error (wrapf "failed to unmarshal aws s3 configuration" e)
    | .ok s3cbi => .ok (s3cbi, stratCfg)

/-- Lines 99-101 and 181-183: the target bucket name, defaulted to
`"{namespace}-{name}"` when the strategy payload specifies none. -/
def resolvedBucketName (cbi : CreateBucketInput) (bs : BlobStorage) : String :=
  cbi.bucket.getD (bs.meta.nspace ++ "-" ++ bs.meta.name)

/-- Line 104 and line 220: the end-user credential request name. -/
def endUserCredsName (bs : BlobStorage) : String :=
  "cloud-resources-aws-s3-" ++ bs.meta.name ++ "-credentials"

/-- `CreateStorage` from the provider-credential step on
(provider_blobstorage.go lines 111-169): provider credentials, the bounded
listing poll, and the idempotent bucket creation. -/
def createStorageWithBucket (env : CreateEnv) (bs : BlobStorage)
    (bucket : String) (endUserCreds : Credentials) (tr : List Event) :
    CreateOutcome :=
  let tr := tr ++ [Event.reconcileProviderCredentials bs.meta.nspace]
  match env.reconcileProviderCredentials with
  | .error e =>
    ⟨.error (wrapf ("failed to reconcile aws blob storage provider credentials for blob storage instance " ++ bs.meta.name) e),
     tr, bs⟩
  | .ok _providerCreds =>
    let polled := pollList env.listBuckets maxPollAttempts 0
    let tr := tr ++ List.replicate polled.2 Event.listBuckets
    match polled.1 with
    | none =>
      ⟨.error (wrapf ("timed out waiting to list s3 buckets, searching for blob storage instance " ++ bs.meta.name)
                 "timed out waiting for the condition"),
       tr, bs⟩
    | some existingBuckets =>
      let bsi : BlobStorageInstance :=
        ⟨⟨bucket, endUserCreds.accessKeyID, endUserCreds.secretAccessKey⟩⟩
      if bucket ∈ existingBuckets then
        ⟨.ok bsi, tr, bs⟩
      else
        let tr := tr ++ [Event.createBucket bucket]
        match env.createBucket with
        | .error e =>
          ⟨.error (wrapf ("failed to create s3 bucket " ++ bucket ++ ", for blob storage instance " ++ bs.meta.name) e),
           tr, bs⟩
        | .ok _ => ⟨.ok bsi, tr, bs⟩

/-- `CreateStorage` after the finalizer step (provider_blobstorage.go lines
93-109): strategy resolution, bucket-name defaulting, end-user credential
issuance. -/
def createStorageAfterFinalizer (env : CreateEnv) (bs : BlobStorage)
    (tr : List Event) : CreateOutcome :=
  match getS3BucketConfig env.readBlobStorageStrategy with
  | .error e =>
    ⟨.error (wrapf ("failed to retrieve aws s3 bucket config for blob storage instance " ++ bs.meta.name) e),
     tr, bs⟩
  | .ok (bucketCreateCfg, _stratCfg) =>
    let bucket := resolvedBucketName bucketCreateCfg bs
    let tr := tr ++ [Event.reconcileBucketOwnerCredentials (endUserCredsName bs) bs.meta.nspace bucket]
    match env.reconcileBucketOwnerCredentials with
    | .error e =>
      ⟨.error (wrapf ("failed to reconcile s3 end-user credentials for blob storage instance " ++ bs.meta.name) e),
       tr, bs⟩
    | .ok endUserCreds => createStorageWithBucket env bs bucket endUserCreds tr

/-- `BlobStorageProvider.CreateStorage` (provider_blobstorage.go lines
82-170): attach the finalizer and persist it first (lines 84-91), then run the
rest of the workflow. -/
def createStorage (env : CreateEnv) (bs : BlobStorage) : CreateOutcome :=
  if bs.meta.deletionTimestamp = none then
    let bs1 := { bs with meta := addFinalizer bs.meta DefaultFinalizer }
    match env.clientUpdate with
    | .error e =>
      ⟨.error (wrapf ("failed to add finalizer to blob storage instance " ++ bs.meta.name) e),
       [Event.updateRequest bs1.meta.finalizers], bs1⟩
    | .ok _ =>
      createStorageAfterFinalizer env bs1 [Event.updateRequest bs1.meta.finalizers]
  else
    createStorageAfterFinalizer env bs []

/-- The error returned by the AWS S3 `DeleteBucket` call: either an
`awserr.Error` carrying a code (the type assertion on line 203 succeeds) or a
plain error. -/
inductive S3Error where
  | awsError (code msg : String)
  | plainError (msg : String)
deriving DecidableEq, Repr

/-- The message of an `S3Error`. -/
def S3Error.message : S3Error → String
  | .awsError _ m => m
  | .plainError m => m

/-- Outcomes of the external calls `DeleteStorage` issues.  `deleteBucket` is
`none` on success, `some e` when the SDK call errors. -/
structure DeleteEnv where
  readBlobStorageStrategy : Except String StrategyConfig
  reconcileProviderCredentials : Except String Credentials
  deleteBucket : Option S3Error
  waitUntilBucketNotExists : Except String Unit
  clientDelete : Except String Unit
  clientUpdate : Except String Unit

/-- Result of one `DeleteStorage` run. -/
structure DeleteOutcome where
  result : Except String Unit
  trace : List Event
  request : BlobStorage
deriving Repr

/-- `DeleteStorage` after the bucket delete call was tolerated or succeeded
(provider_blobstorage.go lines 212-239): wait for absence, delete the
end-user credential request, then remove the finalizer and persist. -/
def deleteStorageAfterBucket (env : DeleteEnv) (bs : BlobStorage)
    (bucket : String) (tr : List Event) : DeleteOutcome :=
  let tr := tr ++ [Event.waitUntilBucketNotExists bucket]
  match env.waitUntilBucketNotExists with
  | .error e =>
    ⟨.error (wrapf ("failed to wait for s3 bucket deletion, " ++ bucket) e), tr, bs⟩
  | .ok _ =>
    let tr := tr ++ [Event.deleteCredentialRequest (endUserCredsName bs) bs.meta.nspace]
    match env.clientDelete with
    | .error e =>
      ⟨.error (wrapf ("failed to delete credential request " ++ endUserCredsName bs) e), tr, bs⟩
    | .ok _ =>
      let bs1 := { bs with meta := removeFinalizer bs.meta DefaultFinalizer }
      let tr := tr ++ [Event.updateRequest bs1.meta.finalizers]
      match env.clientUpdate with
      | .error e =>
        ⟨.error (wrapf ("failed to update instance " ++ bs.meta.name ++ " as part of finalizer reconcile") e),
         tr, bs1⟩
      | .ok _ => ⟨.ok (), tr, bs1⟩

/-- `BlobStorageProvider.DeleteStorage` (provider_blobstorage.go lines
173-240): resolve the bucket config, reconcile provider credentials, issue the
bucket delete tolerating only the `NoSuchBucket` AWS error code, then finish
the teardown. -/
def deleteStorage (env : DeleteEnv) (bs : BlobStorage) : DeleteOutcome :=
  match getS3BucketConfig env.readBlobStorageStrategy with
  | .error e =>
    ⟨.error (wrapf ("failed to retrieve aws s3 bucket config for blob storage instance " ++ bs.meta.name) e),
     [], bs⟩
  | .ok (bucketCreateCfg, _stratCfg) =>
    let bucket := resolvedBucketName bucketCreateCfg bs
    let tr := [Event.reconcileProviderCredentials bs.meta.nspace]
    match env.reconcileProviderCredentials with
    | .error e =>
      ⟨.error (wrapf ("failed to reconcile aws provider credentials for blob storage instance " ++ bs.meta.name) e),
       tr, bs⟩
    | .ok _ =>
      let tr := tr ++ [Event.deleteBucket bucket]
      match env.deleteBucket with
      | some (.plainError m) =>
        ⟨.error (wrapf ("failed to delete s3 bucket " ++ bucket) m), tr, bs⟩
      | some (.awsError code m) =>
        if code ≠ ErrCodeNoSuchBucket then
          ⟨.error (wrapf ("failed to delete aws s3 bucket " ++ bucket ++ ", aws error") m), tr, bs⟩
        else
          deleteStorageAfterBucket env bs bucket tr
      | none => deleteStorageAfterBucket env bs bucket tr

/-! ## The azure Postgres provider stub -/

namespace azure

/-- A `Postgres` request object, restricted to the fields the stub touches. -/
structure Postgres where
  name : String
  nspace : String
deriving DecidableEq, Repr

/-- A Go function outcome: either a panic with its message, or a returned
value. -/
inductive PanicOr (α : Type) where
  | panicked (msg : String)
  | returned (val : α)
deriving DecidableEq, Repr

/-- `PostgresProvider.GetName` (part_000 lines 30-32). -/
def PostgresProviderGetName : String := "Azure Postgres Provider"

/-- `PostgresProvider.SupportsStrategy` (part_000 lines 34-36). -/
def PostgresProviderSupportsStrategy (s : String) : Bool := s == "azure"

/-- `PostgresProvider.DeletePostgres` (part_000 lines 62-64): the body is
`panic("implement me")`; the returned pair would be the status message and the
error. -/
def PostgresProviderDeletePostgres (_ps : Postgres) :
    PanicOr (String × Option String) :=
  .panicked "implement me"

end azure

/-! ## Sample fixtures used to instantiate the theorems -/

/-- A sample blob-storage request: name `mybs`, namespace `ns1`, no finalizers,
no deletion timestamp. -/
def sampleBS : BlobStorage := ⟨⟨"mybs", "ns1", [], none⟩, "production"⟩

/-- A sample strategy read outcome: region `eu-west-1`, empty payload. -/
def sampleStrategy : Except String StrategyConfig := .ok ⟨"eu-west-1", "\x7b\x7d"⟩

/-- Sample end-user credentials. -/
def sampleOwnerCreds : Credentials := ⟨"AKIAOWNER", "ownersecret"⟩

/-- Sample provider credentials. -/
def sampleProviderCreds : Credentials := ⟨"AKIAPROV", "provsecret"⟩

/-- A create environment in which the bucket does not yet exist remotely. -/
def sampleCreateEnvFresh : CreateEnv :=
  ⟨.ok (), sampleStrategy, .ok sampleOwnerCreds, .ok sampleProviderCreds,
   fun _ => some [], .ok ()⟩

/-- A create environment in which the bucket already exists remotely. -/
def sampleCreateEnvExisting : CreateEnv :=
  ⟨.ok (), sampleStrategy, .ok sampleOwnerCreds, .ok sampleProviderCreds,
   fun _ => some ["ns1-mybs"], .ok ()⟩

/-- A create environment in which every listing attempt fails. -/
def sampleCreateEnvListFail : CreateEnv :=
  ⟨.ok (), sampleStrategy, .ok sampleOwnerCreds, .ok sampleProviderCreds,
   fun _ => none, .ok ()⟩

/-- A delete environment in which every step succeeds. -/
def sampleDeleteEnvOk : DeleteEnv :=
  ⟨sampleStrategy, .ok sampleProviderCreds, none, .ok (), .ok (), .ok ()⟩

/-- A delete environment in which the remote bucket is already absent. -/
def sampleDeleteEnvGone : DeleteEnv :=
  ⟨sampleStrategy, .ok sampleProviderCreds,
   some (.awsError "NoSuchBucket" "bucket does not exist"), .ok (), .ok (), .ok ()⟩

/-- A delete environment in which the bucket delete call is denied. -/
def sampleDeleteEnvDenied : DeleteEnv :=
  ⟨sampleStrategy, .ok sampleProviderCreds,
   some (.awsError "AccessDenied" "denied"), .ok (), .ok (), .ok ()⟩

/-! ## Helper lemmas -/

theorem addFinalizer_name (m : ObjectMeta) (f : String) :
    (addFinalizer m f).name = m.name := by
  unfold addFinalizer; split <;> rfl

theorem addFinalizer_nspace (m : ObjectMeta) (f : String) :
    (addFinalizer m f).nspace = m.nspace := by
  unfold addFinalizer; split <;> rfl

theorem addFinalizer_mem (m : ObjectMeta) (f : String) :
    f ∈ (addFinalizer m f).finalizers := by
  unfold addFinalizer
  split
  · assumption
  · simp

theorem removeFinalizer_not_mem (m : ObjectMeta) (f : String) :
    f ∉ (removeFinalizer m f).finalizers := by
  simp [removeFinalizer]

theorem resolvedBucketName_addFinalizer (cbi : CreateBucketInput)
    (bs : BlobStorage) (f : String) :
    resolvedBucketName cbi { bs with meta := addFinalizer bs.meta f } =
      resolvedBucketName cbi bs := by
  simp [resolvedBucketName, addFinalizer_name, addFinalizer_nspace]

theorem endUserCredsName_addFinalizer (bs : BlobStorage) (f : String) :
    endUserCredsName { bs with meta := addFinalizer bs.meta f } =
      endUserCredsName bs := by
  simp [endUserCredsName, addFinalizer_name]

theorem pollList_first (f : Nat → Option (List String)) (l : List String)
    (h : f 0 = some l) (fuel : Nat) :
    pollList f (fuel + 1) 0 = (some l, 1) := by
  simp [pollList, h]

theorem pollList_none (f : Nat → Option (List String)) (h : ∀ n, f n = none) :
    ∀ fuel n, pollList f fuel n = (none, fuel) := by
  intro fuel
  induction fuel with
  | zero => intro n; simp [pollList]
  | succ k ih => intro n; simp [pollList, h n, ih (n + 1)]

theorem maxPollAttempts_succ : maxPollAttempts = 60 + 1 := rfl

theorem createStorageWithBucket_found (env : CreateEnv) (bs : BlobStorage)
    (bucket : String) (creds pc : Credentials) (tr : List Event) (l : List String)
    (hpc : env.reconcileProviderCredentials = .ok pc)
    (hl : env.listBuckets 0 = some l) (hin : bucket ∈ l) :
    createStorageWithBucket env bs bucket creds tr =
      ⟨.ok ⟨⟨bucket, creds.accessKeyID, creds.secretAccessKey⟩⟩,
       tr ++ [Event.reconcileProviderCredentials bs.meta.nspace, Event.listBuckets],
       bs⟩ := by
  have hp : pollList env.listBuckets maxPollAttempts 0 = (some l, 1) :=
    pollList_first env.listBuckets l hl 60
  simp [createStorageWithBucket, hpc, hp, hin]

theorem createStorageWithBucket_created (env : CreateEnv) (bs : BlobStorage)
    (bucket : String) (creds pc : Credentials) (tr : List Event) (l : List String)
    (hpc : env.reconcileProviderCredentials = .ok pc)
    (hl : env.listBuckets 0 = some l) (hnotin : bucket ∉ l)
    (hcr : env.createBucket = .ok ()) :
    createStorageWithBucket env bs bucket creds tr =
      ⟨.ok ⟨⟨bucket, creds.accessKeyID, creds.secretAccessKey⟩⟩,
       tr ++ [Event.reconcileProviderCredentials bs.meta.nspace, Event.listBuckets,
              Event.createBucket bucket],
       bs⟩ := by
  have hp : pollList env.listBuckets maxPollAttempts 0 = (some l, 1) :=
    pollList_first env.listBuckets l hl 60
  simp [createStorageWithBucket, hpc, hp, hnotin, hcr]

theorem createStorageWithBucket_timeout (env : CreateEnv) (bs : BlobStorage)
    (bucket : String) (creds pc : Credentials) (tr : List Event)
    (hpc : env.reconcileProviderCredentials = .ok pc)
    (h : ∀ n, env.listBuckets n = none) :
    createStorageWithBucket env bs bucket creds tr =
      ⟨.error (wrapf ("timed out waiting to list s3 buckets, searching for blob storage instance " ++ bs.meta.name)
                 "timed out waiting for the condition"),
       tr ++ Event.reconcileProviderCredentials bs.meta.nspace ::
         List.replicate maxPollAttempts Event.listBuckets,
       bs⟩ := by
  have hp : pollList env.listBuckets maxPollAttempts 0 = (none, maxPollAttempts) :=
    pollList_none env.listBuckets h maxPollAttempts 0
  simp [createStorageWithBucket, hpc, hp]

theorem createStorageWithBucket_trace_prefix (env : CreateEnv)
    (bs : BlobStorage) (bucket : String) (creds : Credentials) (tr : List Event) :
    ∃ rest, (createStorageWithBucket env bs bucket creds tr).trace = tr ++ rest ∧
      (createStorageWithBucket env bs bucket creds tr).request = bs := by
  unfold createStorageWithBucket
  cases hpc : env.reconcileProviderCredentials with
  | error e => exact ⟨[Event.reconcileProviderCredentials bs.meta.nspace], by simp⟩
  | ok pc =>
    rcases hpoll : pollList env.listBuckets maxPollAttempts 0 with ⟨r, k⟩
    cases r with
    | none =>
      exact ⟨Event.reconcileProviderCredentials bs.meta.nspace ::
               List.replicate k Event.listBuckets, by simp [hpoll]⟩
    | some l =>
      by_cases hmem : bucket ∈ l
      · exact ⟨Event.reconcileProviderCredentials bs.meta.nspace ::
                 List.replicate k Event.listBuckets, by simp [hpoll, hmem]⟩
      · cases hcr : env.createBucket with
        | error e =>
          exact ⟨Event.reconcileProviderCredentials bs.meta.nspace ::
                   (List.replicate k Event.listBuckets ++ [Event.createBucket bucket]),
                 by simp [hpoll, hmem, hcr]⟩
        | ok u =>
          exact ⟨Event.reconcileProviderCredentials bs.meta.nspace ::
                   (List.replicate k Event.listBuckets ++ [Event.createBucket bucket]),
                 by simp [hpoll, hmem, hcr]⟩

theorem createStorageAfterFinalizer_trace_prefix (env : CreateEnv)
    (bs : BlobStorage) (tr : List Event) :
    ∃ rest, (createStorageAfterFinalizer env bs tr).trace = tr ++ rest ∧
      (createStorageAfterFinalizer env bs tr).request = bs := by
  unfold createStorageAfterFinalizer
  cases hg : getS3BucketConfig env.readBlobStorageStrategy with
  | error e => exact ⟨[], by simp⟩
  | ok p =>
    obtain ⟨cbi, scfg⟩ := p
    cases hoc : env.reconcileBucketOwnerCredentials with
    | error e =>
      exact ⟨[Event.reconcileBucketOwnerCredentials (endUserCredsName bs)
                bs.meta.nspace (resolvedBucketName cbi bs)], by simp⟩
    | ok creds =>
      obtain ⟨rest, hrest, hreq⟩ :=
        createStorageWithBucket_trace_prefix env bs (resolvedBucketName cbi bs) creds
          (tr ++ [Event.reconcileBucketOwnerCredentials (endUserCredsName bs)
                    bs.meta.nspace (resolvedBucketName cbi bs)])
      exact ⟨Event.reconcileBucketOwnerCredentials (endUserCredsName bs)
               bs.meta.nspace (resolvedBucketName cbi bs) :: rest,
             by simp [hrest, hreq]⟩

theorem createStorageAfterFinalizer_owner_mem (env : CreateEnv)
    (bs : BlobStorage) (tr : List Event) (cbi : CreateBucketInput)
    (scfg : StrategyConfig)
    (hg : getS3BucketConfig env.readBlobStorageStrategy = .ok (cbi, scfg)) :
    Event.reconcileBucketOwnerCredentials (endUserCredsName bs) bs.meta.nspace
        (resolvedBucketName cbi bs)
      ∈ (createStorageAfterFinalizer env bs tr).trace := by
  unfold createStorageAfterFinalizer
  rw [hg]
  cases hoc : env.reconcileBucketOwnerCredentials with
  | error e => simp
  | ok creds =>
    obtain ⟨rest, hrest, _⟩ :=
      createStorageWithBucket_trace_prefix env bs (resolvedBucketName cbi bs) creds
        (tr ++ [Event.reconcileBucketOwnerCredentials (endUserCredsName bs)
                  bs.meta.nspace (resolvedBucketName cbi bs)])
    simp [hrest]

theorem deleteStorageAfterBucket_trace_prefix (env : DeleteEnv)
    (bs : BlobStorage) (bucket : String) (tr : List Event) :
    ∃ rest, (deleteStorageAfterBucket env bs bucket tr).trace = tr ++ rest := by
  unfold deleteStorageAfterBucket
  cases hw : env.waitUntilBucketNotExists with
  | error e => exact ⟨[Event.waitUntilBucketNotExists bucket], by simp⟩
  | ok u =>
    cases hcd : env.clientDelete with
    | error e =>
      exact ⟨[Event.waitUntilBucketNotExists bucket,
              Event.deleteCredentialRequest (endUserCredsName bs) bs.meta.nspace],
             by simp⟩
    | ok u2 =>
      cases hup : env.clientUpdate with
      | error e =>
        exact ⟨[Event.waitUntilBucketNotExists bucket,
                Event.deleteCredentialRequest (endUserCredsName bs) bs.meta.nspace,
                Event.updateRequest (removeFinalizer bs.meta DefaultFinalizer).finalizers],
               by simp⟩
      | ok u3 =>
        exact ⟨[Event.waitUntilBucketNotExists bucket,
                Event.deleteCredentialRequest (endUserCredsName bs) bs.meta.nspace,
                Event.updateRequest (removeFinalizer bs.meta DefaultFinalizer).finalizers],
               by simp⟩

theorem deleteStorageAfterBucket_ok_shape (env : DeleteEnv) (bs : BlobStorage)
    (bucket : String) (tr : List Event)
    (h : (deleteStorageAfterBucket env bs bucket tr).result = .ok ()) :
    deleteStorageAfterBucket env bs bucket tr =
      ⟨.ok (),
       tr ++ [Event.waitUntilBucketNotExists bucket,
              Event.deleteCredentialRequest (endUserCredsName bs) bs.meta.nspace,
              Event.updateRequest (removeFinalizer bs.meta DefaultFinalizer).finalizers],
       { bs with meta := removeFinalizer bs.meta DefaultFinalizer }⟩ := by
  unfold deleteStorageAfterBucket at h ⊢
  cases hw : env.waitUntilBucketNotExists with
  | error e => rw [hw] at h; simp at h
  | ok u =>
    rw [hw] at h
    cases hcd : env.clientDelete with
    | error e => rw [hcd] at h; simp at h
    | ok u2 =>
      rw [hcd] at h
      cases hup : env.clientUpdate with
      | error e => rw [hup] at h; simp at h
      | ok u3 => simp [hup]

theorem deleteStorage_ok_shape (env : DeleteEnv) (bs : BlobStorage)
    (h : (deleteStorage env bs).result = .ok ()) :
    ∃ cbi scfg, getS3BucketConfig env.readBlobStorageStrategy = .ok (cbi, scfg) ∧
      deleteStorage env bs =
        ⟨.ok (),
         [Event.reconcileProviderCredentials bs.meta.nspace,
          Event.deleteBucket (resolvedBucketName cbi bs),
          Event.waitUntilBucketNotExists (resolvedBucketName cbi bs),
          Event.deleteCredentialRequest (endUserCredsName bs) bs.meta.nspace,
          Event.updateRequest (removeFinalizer bs.meta DefaultFinalizer).finalizers],
         { bs with meta := removeFinalizer bs.meta DefaultFinalizer }⟩ := by
  rcases hg : getS3BucketConfig env.readBlobStorageStrategy with e | ⟨cbi, scfg⟩
  · exact absurd h (by simp [deleteStorage, hg])
  refine ⟨cbi, scfg, rfl, ?_⟩
  rcases hpc : env.reconcileProviderCredentials with e | pcv
  · exact absurd h (by simp [deleteStorage, hg, hpc])
  have hafter : ∀ tr,
      (deleteStorageAfterBucket env bs (resolvedBucketName cbi bs) tr).result = .ok () →
      deleteStorageAfterBucket env bs (resolvedBucketName cbi bs) tr =
        ⟨.ok (),
         tr ++ [Event.waitUntilBucketNotExists (resolvedBucketName cbi bs),
                Event.deleteCredentialRequest (endUserCredsName bs) bs.meta.nspace,
                Event.updateRequest (removeFinalizer bs.meta DefaultFinalizer).finalizers],
         { bs with meta := removeFinalizer bs.meta DefaultFinalizer }⟩ :=
    fun tr => deleteStorageAfterBucket_ok_shape env bs (resolvedBucketName cbi bs) tr
  rcases hdb : env.deleteBucket with _ | err
  · have h2 : (deleteStorageAfterBucket env bs (resolvedBucketName cbi bs)
        [Event.reconcileProviderCredentials bs.meta.nspace,
         Event.deleteBucket (resolvedBucketName cbi bs)]).result = .ok () := by
      rw [show (deleteStorageAfterBucket env bs (resolvedBucketName cbi bs)
          [Event.reconcileProviderCredentials bs.meta.nspace,
           Event.deleteBucket (resolvedBucketName cbi bs)]) = deleteStorage env bs from by
        simp [deleteStorage, hg, hpc, hdb]]
      exact h
    have h3 := hafter _ h2
    simp [deleteStorage, hg, hpc, hdb, h3]
  · rcases err with ⟨c, m⟩ | m
    · by_cases hc : c = ErrCodeNoSuchBucket
      · subst hc
        have h2 : (deleteStorageAfterBucket env bs (resolvedBucketName cbi bs)
            [Event.reconcileProviderCredentials bs.meta.nspace,
             Event.deleteBucket (resolvedBucketName cbi bs)]).result = .ok () := by
          rw [show (deleteStorageAfterBucket env bs (resolvedBucketName cbi bs)
              [Event.reconcileProviderCredentials bs.meta.nspace,
               Event.deleteBucket (resolvedBucketName cbi bs)]) = deleteStorage env bs from by
            simp [deleteStorage, hg, hpc, hdb]]
          exact h
        have h3 := hafter _ h2
        simp [deleteStorage, hg, hpc, hdb, h3]
      · exact absurd h (by simp [deleteStorage, hg, hpc, hdb, hc])
    · exact absurd h (by simp [deleteStorage, hg, hpc, hdb])

theorem deleteStorageAfterBucket_fail (env : DeleteEnv) (bs : BlobStorage)
    (bucket : String) (tr : List Event)
    (htr : ∀ fs, Event.updateRequest fs ∉ tr)
    (hfail : (∃ e, env.waitUntilBucketNotExists = .error e) ∨
      (∃ e, env.clientDelete = .error e)) :
    (∃ msg, (deleteStorageAfterBucket env bs bucket tr).result = .error msg) ∧
    (deleteStorageAfterBucket env bs bucket tr).request = bs ∧
    ∀ fs, Event.updateRequest fs ∉ (deleteStorageAfterBucket env bs bucket tr).trace := by
  rcases hw : env.waitUntilBucketNotExists with e | u
  · refine ⟨⟨wrapf ("failed to wait for s3 bucket deletion, " ++ bucket) e,
        by simp [deleteStorageAfterBucket, hw]⟩,
      by simp [deleteStorageAfterBucket, hw], fun fs => ?_⟩
    simp [deleteStorageAfterBucket, hw]
    exact htr fs
  · rcases hfail with ⟨e, hw2⟩ | ⟨e, hcd⟩
    · rw [hw] at hw2; cases hw2
    · refine ⟨⟨wrapf ("failed to delete credential request " ++ endUserCredsName bs) e,
          by simp [deleteStorageAfterBucket, hw, hcd]⟩,
        by simp [deleteStorageAfterBucket, hw, hcd], fun fs => ?_⟩
      simp [deleteStorageAfterBucket, hw, hcd]
      exact htr fs

theorem deleteStorage_deleteBucket_mem (env : DeleteEnv) (bs : BlobStorage)
    (cbi : CreateBucketInput) (scfg : StrategyConfig) (pc : Credentials)
    (hg : getS3BucketConfig env.readBlobStorageStrategy = .ok (cbi, scfg))
    (hpc : env.reconcileProviderCredentials = .ok pc) :
    Event.deleteBucket (resolvedBucketName cbi bs) ∈ (deleteStorage env bs).trace := by
  rcases hdb : env.deleteBucket with _ | err
  · obtain ⟨rest, hrest⟩ := deleteStorageAfterBucket_trace_prefix env bs
      (resolvedBucketName cbi bs)
      [Event.reconcileProviderCredentials bs.meta.nspace,
       Event.deleteBucket (resolvedBucketName cbi bs)]
    simp [deleteStorage, hg, hpc, hdb, hrest]
  · rcases err with ⟨c, m⟩ | m
    · by_cases hc : c = ErrCodeNoSuchBucket
      · subst hc
        obtain ⟨rest, hrest⟩ := deleteStorageAfterBucket_trace_prefix env bs
          (resolvedBucketName cbi bs)
          [Event.reconcileProviderCredentials bs.meta.nspace,
           Event.deleteBucket (resolvedBucketName cbi bs)]
        simp [deleteStorage, hg, hpc, hdb, hrest]
      · simp [deleteStorage, hg, hpc, hdb, hc]
    · simp [deleteStorage, hg, hpc, hdb]

/-! ## Claims about the create workflow -/

/-- C1: when the target bucket name already appears in the listed remote
buckets, `CreateStorage` skips the remote creation call and returns without
error a `BlobStorageInstance` describing the existing bucket (bucket name,
end-user credential key id and secret); hence a second `Create` after the
first call created the bucket returns an equal instance and issues no second
creation call. -/
theorem createStorage_skips_existing_bucket
    (env env' : CreateEnv) (bs : BlobStorage) (cbi : CreateBucketInput)
    (scfg : StrategyConfig) (creds pc pc' : Credentials) (l l' : List String)
    (hu : env.clientUpdate = .ok ()) (hu' : env'.clientUpdate = .ok ())
    (hg : getS3BucketConfig env.readBlobStorageStrategy = .ok (cbi, scfg))
    (hg' : getS3BucketConfig env'.readBlobStorageStrategy = .ok (cbi, scfg))
    (hoc : env.reconcileBucketOwnerCredentials = .ok creds)
    (hoc' : env'.reconcileBucketOwnerCredentials = .ok creds)
    (hpc : env.reconcileProviderCredentials = .ok pc)
    (hpc' : env'.reconcileProviderCredentials = .ok pc')
    (hl : env.listBuckets 0 = some l) (hl' : env'.listBuckets 0 = some l')
    (hnotin : resolvedBucketName cbi bs ∉ l)
    (hcr : env.createBucket = .ok ())
    (hin : resolvedBucketName cbi bs ∈ l') :
    (createStorage env' bs).result =
        .ok ⟨⟨resolvedBucketName cbi bs, creds.accessKeyID, creds.secretAccessKey⟩⟩ ∧
    (∀ b, Event.createBucket b ∉ (createStorage env' bs).trace) ∧
    (createStorage env bs).result = (createStorage env' bs).result := by
  by_cases hdts : bs.meta.deletionTimestamp = none
  · have hname := resolvedBucketName_addFinalizer cbi bs DefaultFinalizer
    have hcn := endUserCredsName_addFinalizer bs DefaultFinalizer
    have hns := addFinalizer_nspace bs.meta DefaultFinalizer
    have run' : createStorage env' bs =
        createStorageWithBucket env'
          { bs with meta := addFinalizer bs.meta DefaultFinalizer }
          (resolvedBucketName cbi bs) creds
          [Event.updateRequest (addFinalizer bs.meta DefaultFinalizer).finalizers,
           Event.reconcileBucketOwnerCredentials (endUserCredsName bs) bs.meta.nspace
             (resolvedBucketName cbi bs)] := by
      simp [createStorage, hdts, hu', createStorageAfterFinalizer, hg', hoc',
        hname, hcn, hns]
    have run : createStorage env bs =
        createStorageWithBucket env
          { bs with meta := addFinalizer bs.meta DefaultFinalizer }
          (resolvedBucketName cbi bs) creds
          [Event.updateRequest (addFinalizer bs.meta DefaultFinalizer).finalizers,
           Event.reconcileBucketOwnerCredentials (endUserCredsName bs) bs.meta.nspace
             (resolvedBucketName cbi bs)] := by
      simp [createStorage, hdts, hu, createStorageAfterFinalizer, hg, hoc,
        hname, hcn, hns]
    have found := createStorageWithBucket_found env'
      { bs with meta := addFinalizer bs.meta DefaultFinalizer }
      (resolvedBucketName cbi bs) creds pc'
      [Event.updateRequest (addFinalizer bs.meta DefaultFinalizer).finalizers,
       Event.reconcileBucketOwnerCredentials (endUserCredsName bs) bs.meta.nspace
         (resolvedBucketName cbi bs)] l' hpc' hl' hin
    have created := createStorageWithBucket_created env
      { bs with meta := addFinalizer bs.meta DefaultFinalizer }
      (resolvedBucketName cbi bs) creds pc
      [Event.updateRequest (addFinalizer bs.meta DefaultFinalizer).finalizers,
       Event.reconcileBucketOwnerCredentials (endUserCredsName bs) bs.meta.nspace
         (resolvedBucketName cbi bs)] l hpc hl hnotin hcr
    rw [run', run, found, created]
    refine ⟨rfl, ?_, rfl⟩
    intro b
    simp
  · have run' : createStorage env' bs =
        createStorageWithBucket env' bs (resolvedBucketName cbi bs) creds
          [Event.reconcileBucketOwnerCredentials (endUserCredsName bs) bs.meta.nspace
             (resolvedBucketName cbi bs)] := by
      simp [createStorage, hdts, createStorageAfterFinalizer, hg', hoc']
    have run : createStorage env bs =
        createStorageWithBucket env bs (resolvedBucketName cbi bs) creds
          [Event.reconcileBucketOwnerCredentials (endUserCredsName bs) bs.meta.nspace
             (resolvedBucketName cbi bs)] := by
      simp [createStorage, hdts, createStorageAfterFinalizer, hg, hoc]
    have found := createStorageWithBucket_found env' bs
      (resolvedBucketName cbi bs) creds pc'
      [Event.reconcileBucketOwnerCredentials (endUserCredsName bs) bs.meta.nspace
         (resolvedBucketName cbi bs)] l' hpc' hl' hin
    have created := createStorageWithBucket_created env bs
      (resolvedBucketName cbi bs) creds pc
      [Event.reconcileBucketOwnerCredentials (endUserCredsName bs) bs.meta.nspace
         (resolvedBucketName cbi bs)] l hpc hl hnotin hcr
    rw [run', run, found, created]
    refine ⟨rfl, ?_, rfl⟩
    intro b
    simp

/-- Witness for `createStorage_skips_existing_bucket`: a request created first
against an empty bucket list, then re-created when the bucket is listed. -/
theorem createStorage_skips_existing_bucket_witness :
    (createStorage sampleCreateEnvExisting sampleBS).result =
        .ok ⟨⟨"ns1-mybs", "AKIAOWNER", "ownersecret"⟩⟩ ∧
    Event.createBucket "ns1-mybs" ∉ (createStorage sampleCreateEnvExisting sampleBS).trace ∧
    (createStorage sampleCreateEnvFresh sampleBS).result =
        (createStorage sampleCreateEnvExisting sampleBS).result := by
  have h := createStorage_skips_existing_bucket
    sampleCreateEnvFresh sampleCreateEnvExisting sampleBS
    ⟨none⟩ ⟨"eu-west-1", "\x7b\x7d"⟩
    sampleOwnerCreds sampleProviderCreds sampleProviderCreds
    [] ["ns1-mybs"]
    rfl rfl (by decide) (by decide) rfl rfl rfl rfl rfl rfl
    (by decide) rfl (by decide)
  exact ⟨h.1, h.2.1 "ns1-mybs", h.2.2⟩

/-- C4: when no listing attempt succeeds, `CreateStorage` retries the listing
at the fixed 5-second interval over the 5-minute ceiling — the trace contains
exactly `maxPollAttempts` listing calls and nothing else after the credential
steps — then returns the timeout error and performs no remote creation
call. -/
theorem createStorage_list_timeout
    (env : CreateEnv) (bs : BlobStorage) (cbi : CreateBucketInput)
    (scfg : StrategyConfig) (creds pc : Credentials)
    (hdts : bs.meta.deletionTimestamp = none)
    (hu : env.clientUpdate = .ok ())
    (hg : getS3BucketConfig env.readBlobStorageStrategy = .ok (cbi, scfg))
    (hoc : env.reconcileBucketOwnerCredentials = .ok creds)
    (hpc : env.reconcileProviderCredentials = .ok pc)
    (hlist : ∀ n, env.listBuckets n = none) :
    (createStorage env bs).result =
        .error (wrapf ("timed out waiting to list s3 buckets, searching for blob storage instance " ++ bs.meta.name)
                  "timed out waiting for the condition") ∧
    (∀ b, Event.createBucket b ∉ (createStorage env bs).trace) ∧
    (∃ pre, (createStorage env bs).trace =
        pre ++ List.replicate maxPollAttempts Event.listBuckets ∧
      Event.listBuckets ∉ pre) ∧
    maxPollAttempts = pollCeiling / pollInterval + 1 := by
  have hname := resolvedBucketName_addFinalizer cbi bs DefaultFinalizer
  have hcn := endUserCredsName_addFinalizer bs DefaultFinalizer
  have hns := addFinalizer_nspace bs.meta DefaultFinalizer
  have hnm := addFinalizer_name bs.meta DefaultFinalizer
  have run : createStorage env bs =
      createStorageWithBucket env
        { bs with meta := addFinalizer bs.meta DefaultFinalizer }
        (resolvedBucketName cbi bs) creds
        [Event.updateRequest (addFinalizer bs.meta DefaultFinalizer).finalizers,
         Event.reconcileBucketOwnerCredentials (endUserCredsName bs) bs.meta.nspace
           (resolvedBucketName cbi bs)] := by
    simp [createStorage, hdts, hu, createStorageAfterFinalizer, hg, hoc,
      hname, hcn, hns]
  have tmo := createStorageWithBucket_timeout env
    { bs with meta := addFinalizer bs.meta DefaultFinalizer }
    (resolvedBucketName cbi bs) creds pc
    [Event.updateRequest (addFinalizer bs.meta DefaultFinalizer).finalizers,
       Event.reconcileBucketOwnerCredentials (endUserCredsName bs) bs.meta.nspace
         (resolvedBucketName cbi bs)] hpc hlist
  rw [run, tmo]
  refine ⟨by simp [hnm], ?_, ?_, rfl⟩
  · intro b
    simp
  · refine ⟨[Event.updateRequest (addFinalizer bs.meta DefaultFinalizer).finalizers,
             Event.reconcileBucketOwnerCredentials (endUserCredsName bs) bs.meta.nspace
               (resolvedBucketName cbi bs),
             Event.reconcileProviderCredentials bs.meta.nspace], ?_, ?_⟩
    · simp [hns]
    · simp

/-- Witness for `createStorage_list_timeout` under an environment whose every
listing attempt fails. -/
theorem createStorage_list_timeout_witness :
    (createStorage sampleCreateEnvListFail sampleBS).result =
        .error (wrapf "timed out waiting to list s3 buckets, searching for blob storage instance mybs"
                  "timed out waiting for the condition") ∧
    Event.createBucket "ns1-mybs" ∉ (createStorage sampleCreateEnvListFail sampleBS).trace ∧
    (∃ pre, (createStorage sampleCreateEnvListFail sampleBS).trace =
        pre ++ List.replicate maxPollAttempts Event.listBuckets ∧
      Event.listBuckets ∉ pre) := by
  have h := createStorage_list_timeout sampleCreateEnvListFail sampleBS
    ⟨none⟩ ⟨"eu-west-1", "\x7b\x7d"⟩ sampleOwnerCreds sampleProviderCreds
    rfl rfl (by decide) rfl rfl (fun _ => rfl)
  exact ⟨h.1, h.2.1 "ns1-mybs", h.2.2.1⟩

/-! ## Claims about finalizer ordering and the delete workflow -/

/-- C2: for a request with no deletion timestamp, `CreateStorage` adds the
finalizer marker and persists the request as its very first external call,
before any remote call; `DeleteStorage` removes the marker and persists only
as its last step, after the bucket delete, the absence wait and the credential
request delete; when the bucket delete fails (untolerated), the wait fails, or
the credential deletion fails, an error is returned, the request is untouched
and no finalizer-removing update is ever issued. -/
theorem finalizer_lifecycle (cenv : CreateEnv) (denv : DeleteEnv)
    (bs : BlobStorage) :
    (bs.meta.deletionTimestamp = none →
      (∃ t, (createStorage cenv bs).trace =
          Event.updateRequest (addFinalizer bs.meta DefaultFinalizer).finalizers :: t) ∧
      DefaultFinalizer ∈ (addFinalizer bs.meta DefaultFinalizer).finalizers ∧
      (createStorage cenv bs).request.meta.finalizers =
        (addFinalizer bs.meta DefaultFinalizer).finalizers) ∧
    ((deleteStorage denv bs).result = .ok () →
      ∃ pre bucket,
        (deleteStorage denv bs).trace =
            pre ++ [Event.updateRequest (removeFinalizer bs.meta DefaultFinalizer).finalizers] ∧
        Event.deleteBucket bucket ∈ pre ∧
        Event.waitUntilBucketNotExists bucket ∈ pre ∧
        Event.deleteCredentialRequest (endUserCredsName bs) bs.meta.nspace ∈ pre ∧
        DefaultFinalizer ∉ (removeFinalizer bs.meta DefaultFinalizer).finalizers) ∧
    (((∃ c m, denv.deleteBucket = some (.awsError c m) ∧ c ≠ ErrCodeNoSuchBucket) ∨
      (∃ m, denv.deleteBucket = some (.plainError m)) ∨
      (∃ e, denv.waitUntilBucketNotExists = .error e) ∨
      (∃ e, denv.clientDelete = .error e)) →
      (∃ msg, (deleteStorage denv bs).result = .error msg) ∧
      (deleteStorage denv bs).request = bs ∧
      ∀ fs, Event.updateRequest fs ∉ (deleteStorage denv bs).trace) := by
  refine ⟨?_, ?_, ?_⟩
  · intro hdts
    cases hu : cenv.clientUpdate with
    | error e =>
      exact ⟨⟨[], by simp [createStorage, hdts, hu]⟩,
        addFinalizer_mem bs.meta DefaultFinalizer,
        by simp [createStorage, hdts, hu]⟩
    | ok u =>
      obtain ⟨rest, hrest, hreq⟩ := createStorageAfterFinalizer_trace_prefix cenv
        { bs with meta := addFinalizer bs.meta DefaultFinalizer }
        [Event.updateRequest (addFinalizer bs.meta DefaultFinalizer).finalizers]
      exact ⟨⟨rest, by simp [createStorage, hdts, hu, hrest]⟩,
        addFinalizer_mem bs.meta DefaultFinalizer,
        by simp [createStorage, hdts, hu, hreq]⟩
  · intro hok
    obtain ⟨cbi, scfg, hg, hshape⟩ := deleteStorage_ok_shape denv bs hok
    refine ⟨[Event.reconcileProviderCredentials bs.meta.nspace,
             Event.deleteBucket (resolvedBucketName cbi bs),
             Event.waitUntilBucketNotExists (resolvedBucketName cbi bs),
             Event.deleteCredentialRequest (endUserCredsName bs) bs.meta.nspace],
           resolvedBucketName cbi bs, ?_, by simp, by simp, by simp,
           removeFinalizer_not_mem bs.meta DefaultFinalizer⟩
    rw [hshape]
    rfl
  · intro hfail
    rcases hg : getS3BucketConfig denv.readBlobStorageStrategy with e | ⟨cbi, scfg⟩
    · exact ⟨⟨wrapf ("failed to retrieve aws s3 bucket config for blob storage instance " ++ bs.meta.name) e,
          by simp [deleteStorage, hg]⟩,
        by simp [deleteStorage, hg], fun fs => by simp [deleteStorage, hg]⟩
    · rcases hpc : denv.reconcileProviderCredentials with e | pcv
      · exact ⟨⟨wrapf ("failed to reconcile aws provider credentials for blob storage instance " ++ bs.meta.name) e,
            by simp [deleteStorage, hg, hpc]⟩,
          by simp [deleteStorage, hg, hpc],
          fun fs => by simp [deleteStorage, hg, hpc]⟩
      · rcases hdb : denv.deleteBucket with _ | err
        · have hwcd : (∃ e, denv.waitUntilBucketNotExists = .error e) ∨
              (∃ e, denv.clientDelete = .error e) := by
            rcases hfail with ⟨c, m, hx, _⟩ | ⟨m, hx⟩ | h1 | h2
            · rw [hdb] at hx; cases hx
            · rw [hdb] at hx; cases hx
            · exact Or.inl h1
            · exact Or.inr h2
          have hd := deleteStorageAfterBucket_fail denv bs (resolvedBucketName cbi bs)
            [Event.reconcileProviderCredentials bs.meta.nspace,
             Event.deleteBucket (resolvedBucketName cbi bs)]
            (fun fs => by simp) hwcd
          have heq : deleteStorage denv bs =
              deleteStorageAfterBucket denv bs (resolvedBucketName cbi bs)
                [Event.reconcileProviderCredentials bs.meta.nspace,
                 Event.deleteBucket (resolvedBucketName cbi bs)] := by
            simp [deleteStorage, hg, hpc, hdb]
          rw [heq]
          exact hd
        · rcases err with ⟨c, m⟩ | m
          · by_cases hc : c = ErrCodeNoSuchBucket
            · subst hc
              have hwcd : (∃ e, denv.waitUntilBucketNotExists = .error e) ∨
                  (∃ e, denv.clientDelete = .error e) := by
                rcases hfail with ⟨c2, m2, hx, hne⟩ | ⟨m2, hx⟩ | h1 | h2
                · rw [hdb] at hx
                  simp at hx
                  exact absurd hx.1.symm hne
                · rw [hdb] at hx; simp at hx
                · exact Or.inl h1
                · exact Or.inr h2
              have hd := deleteStorageAfterBucket_fail denv bs (resolvedBucketName cbi bs)
                [Event.reconcileProviderCredentials bs.meta.nspace,
                 Event.deleteBucket (resolvedBucketName cbi bs)]
                (fun fs => by simp) hwcd
              have heq : deleteStorage denv bs =
                  deleteStorageAfterBucket denv bs (resolvedBucketName cbi bs)
                    [Event.reconcileProviderCredentials bs.meta.nspace,
                     Event.deleteBucket (resolvedBucketName cbi bs)] := by
                simp [deleteStorage, hg, hpc, hdb]
              rw [heq]
              exact hd
            · exact ⟨⟨wrapf ("failed to delete aws s3 bucket " ++ resolvedBucketName cbi bs ++ ", aws error") m,
                  by simp [deleteStorage, hg, hpc, hdb, hc]⟩,
                by simp [deleteStorage, hg, hpc, hdb, hc],
                fun fs => by simp [deleteStorage, hg, hpc, hdb, hc]⟩
          · exact ⟨⟨wrapf ("failed to delete s3 bucket " ++ resolvedBucketName cbi bs) m,
                by simp [deleteStorage, hg, hpc, hdb]⟩,
              by simp [deleteStorage, hg, hpc, hdb],
              fun fs => by simp [deleteStorage, hg, hpc, hdb]⟩

/-- Witness for `finalizer_lifecycle`: the sample request created under a
fresh environment, deleted under an all-success environment, and deleted
under a denied environment. -/
theorem finalizer_lifecycle_witness :
    ((∃ t, (createStorage sampleCreateEnvFresh sampleBS).trace =
        Event.updateRequest (addFinalizer sampleBS.meta DefaultFinalizer).finalizers :: t) ∧
      DefaultFinalizer ∈ (addFinalizer sampleBS.meta DefaultFinalizer).finalizers ∧
      (createStorage sampleCreateEnvFresh sampleBS).request.meta.finalizers =
        (addFinalizer sampleBS.meta DefaultFinalizer).finalizers) ∧
    (∃ pre bucket,
      (deleteStorage sampleDeleteEnvOk sampleBS).trace =
          pre ++ [Event.updateRequest (removeFinalizer sampleBS.meta DefaultFinalizer).finalizers] ∧
      Event.deleteBucket bucket ∈ pre ∧
      Event.waitUntilBucketNotExists bucket ∈ pre ∧
      Event.deleteCredentialRequest (endUserCredsName sampleBS) sampleBS.meta.nspace ∈ pre ∧
      DefaultFinalizer ∉ (removeFinalizer sampleBS.meta DefaultFinalizer).finalizers) ∧
    ((∃ msg, (deleteStorage sampleDeleteEnvDenied sampleBS).result = .error msg) ∧
      (deleteStorage sampleDeleteEnvDenied sampleBS).request = sampleBS ∧
      Event.updateRequest [] ∉ (deleteStorage sampleDeleteEnvDenied sampleBS).trace) := by
  have h := finalizer_lifecycle sampleCreateEnvFresh sampleDeleteEnvOk sampleBS
  have h' := finalizer_lifecycle sampleCreateEnvFresh sampleDeleteEnvDenied sampleBS
  have h3 := h'.2.2 (Or.inl ⟨"AccessDenied", "denied", rfl, by decide⟩)
  exact ⟨h.1 rfl, h.2.1 (by decide), h3.1, h3.2.1, h3.2.2 []⟩

/-- C3: `DeleteStorage` treats a bucket delete failure with AWS error code
`NoSuchBucket` as success and continues, while every other delete error (an
AWS error with another code, or a non-AWS error) is returned wrapped; hence a
first delete with the bucket present and a second with the bucket absent both
return success. -/
theorem deleteStorage_tolerates_noSuchBucket
    (env : DeleteEnv) (bs : BlobStorage) (cbi : CreateBucketInput)
    (scfg : StrategyConfig) (pc : Credentials)
    (hg : getS3BucketConfig env.readBlobStorageStrategy = .ok (cbi, scfg))
    (hpc : env.reconcileProviderCredentials = .ok pc) :
    (∀ m, env.deleteBucket = some (.awsError ErrCodeNoSuchBucket m) →
      env.waitUntilBucketNotExists = .ok () → env.clientDelete = .ok () →
      env.clientUpdate = .ok () →
      (deleteStorage env bs).result = .ok ()) ∧
    (env.deleteBucket = none →
      env.waitUntilBucketNotExists = .ok () → env.clientDelete = .ok () →
      env.clientUpdate = .ok () →
      (deleteStorage env bs).result = .ok ()) ∧
    (∀ c m, env.deleteBucket = some (.awsError c m) → c ≠ ErrCodeNoSuchBucket →
      (deleteStorage env bs).result =
        .error (wrapf ("failed to delete aws s3 bucket " ++ resolvedBucketName cbi bs ++ ", aws error") m)) ∧
    (∀ m, env.deleteBucket = some (.plainError m) →
      (deleteStorage env bs).result =
        .error (wrapf ("failed to delete s3 bucket " ++ resolvedBucketName cbi bs) m)) := by
  refine ⟨?_, ?_, ?_, ?_⟩
  · intro m hdb hw hcd hup
    simp [deleteStorage, deleteStorageAfterBucket, hg, hpc, hdb, hw, hcd, hup]
  · intro hdb hw hcd hup
    simp [deleteStorage, deleteStorageAfterBucket, hg, hpc, hdb, hw, hcd, hup]
  · intro c m hdb hc
    simp [deleteStorage, hg, hpc, hdb, hc]
  · intro m hdb
    simp [deleteStorage, hg, hpc, hdb]

/-- Witness for `deleteStorage_tolerates_noSuchBucket`: first delete with the
bucket present, second with it already absent, and a denied delete. -/
theorem deleteStorage_tolerates_noSuchBucket_witness :
    (deleteStorage sampleDeleteEnvOk sampleBS).result = .ok () ∧
    (deleteStorage sampleDeleteEnvGone sampleBS).result = .ok () ∧
    (deleteStorage sampleDeleteEnvDenied sampleBS).result =
      .error (wrapf "failed to delete aws s3 bucket ns1-mybs, aws error" "denied") := by
  have h1 := deleteStorage_tolerates_noSuchBucket sampleDeleteEnvOk sampleBS
    ⟨none⟩ ⟨"eu-west-1", "\x7b\x7d"⟩ sampleProviderCreds (by decide) rfl
  have h2 := deleteStorage_tolerates_noSuchBucket sampleDeleteEnvGone sampleBS
    ⟨none⟩ ⟨"eu-west-1", "\x7b\x7d"⟩ sampleProviderCreds (by decide) rfl
  have h3 := deleteStorage_tolerates_noSuchBucket sampleDeleteEnvDenied sampleBS
    ⟨none⟩ ⟨"eu-west-1", "\x7b\x7d"⟩ sampleProviderCreds (by decide) rfl
  exact ⟨h1.2.1 rfl rfl rfl rfl,
    h2.1 "bucket does not exist" rfl rfl rfl rfl,
    h3.2.2.1 "AccessDenied" "denied" rfl (by decide)⟩

/-- C9: when the strategy payload does not specify a bucket name, both
`CreateStorage` and `DeleteStorage` derive the same deterministic target name
`"{namespace}-{name}"`: the create workflow requests end-user credentials for
that bucket and the delete workflow deletes that bucket. -/
theorem derived_name_deterministic
    (cenv : CreateEnv) (denv : DeleteEnv) (bs : BlobStorage)
    (cbi : CreateBucketInput) (scfg scfg' : StrategyConfig) (pc : Credentials)
    (hb : cbi.bucket = none)
    (hu : cenv.clientUpdate = .ok ())
    (hg : getS3BucketConfig cenv.readBlobStorageStrategy = .ok (cbi, scfg))
    (hg' : getS3BucketConfig denv.readBlobStorageStrategy = .ok (cbi, scfg'))
    (hpc : denv.reconcileProviderCredentials = .ok pc) :
    resolvedBucketName cbi bs = bs.meta.nspace ++ "-" ++ bs.meta.name ∧
    Event.reconcileBucketOwnerCredentials (endUserCredsName bs) bs.meta.nspace
        (bs.meta.nspace ++ "-" ++ bs.meta.name) ∈ (createStorage cenv bs).trace ∧
    Event.deleteBucket (bs.meta.nspace ++ "-" ++ bs.meta.name)
        ∈ (deleteStorage denv bs).trace := by
  have hres : resolvedBucketName cbi bs = bs.meta.nspace ++ "-" ++ bs.meta.name := by
    simp [resolvedBucketName, hb]
  refine ⟨hres, ?_, ?_⟩
  · by_cases hdts : bs.meta.deletionTimestamp = none
    · have run : createStorage cenv bs =
          createStorageAfterFinalizer cenv
            { bs with meta := addFinalizer bs.meta DefaultFinalizer }
            [Event.updateRequest (addFinalizer bs.meta DefaultFinalizer).finalizers] := by
        simp [createStorage, hdts, hu]
      have hmem := createStorageAfterFinalizer_owner_mem cenv
        { bs with meta := addFinalizer bs.meta DefaultFinalizer }
        [Event.updateRequest (addFinalizer bs.meta DefaultFinalizer).finalizers]
        cbi scfg hg
      rw [run]
      simpa [endUserCredsName_addFinalizer, resolvedBucketName_addFinalizer,
        addFinalizer_nspace, hres] using hmem
    · have run : createStorage cenv bs = createStorageAfterFinalizer cenv bs [] := by
        simp [createStorage, hdts]
      have hmem := createStorageAfterFinalizer_owner_mem cenv bs [] cbi scfg hg
      rw [run]
      rw [hres] at hmem
      exact hmem
  · have hmem := deleteStorage_deleteBucket_mem denv bs cbi scfg' pc hg' hpc
    rw [hres] at hmem
    exact hmem

/-- Witness for `derived_name_deterministic` on the sample request. -/
theorem derived_name_deterministic_witness :
    resolvedBucketName ⟨none⟩ sampleBS = "ns1-mybs" ∧
    Event.reconcileBucketOwnerCredentials "cloud-resources-aws-s3-mybs-credentials"
        "ns1" "ns1-mybs" ∈ (createStorage sampleCreateEnvFresh sampleBS).trace ∧
    Event.deleteBucket "ns1-mybs" ∈ (deleteStorage sampleDeleteEnvOk sampleBS).trace := by
  have h := derived_name_deterministic sampleCreateEnvFresh sampleDeleteEnvOk sampleBS
    ⟨none⟩ ⟨"eu-west-1", "\x7b\x7d"⟩ ⟨"eu-west-1", "\x7b\x7d"⟩ sampleProviderCreds
    rfl rfl (by decide) (by decide) rfl
  exact ⟨h.1, h.2.1, h.2.2⟩

/-! ## Claims about the config manager -/

/-- C5: when the Strategy Store entry is absent,
`GetStrategyMappingForDeploymentType` returns the seeded defaults without
error: `"managed"` maps all four resource kinds to `"aws"`; `"workshop"` maps
BlobStorage and SMTPCredentials to `"aws"`, Redis and Postgres to
`"openshift"`. -/
theorem getStrategyMapping_seeded_defaults :
    getStrategyMappingForDeploymentType none "managed" =
        .ok ⟨"aws", "aws", "aws", "aws"⟩ ∧
    getStrategyMappingForDeploymentType none "workshop" =
        .ok ⟨"aws", "aws", "openshift", "openshift"⟩ :=
  ⟨rfl, rfl⟩

/-- C6 (counterexample): it is not the case that every successful lookup
returns a mapping with all four fields non-empty — a stored document missing
fields decodes without error, the absent fields becoming empty strings. -/
theorem getStrategyMapping_nonempty_counterexample :
    ¬ (∀ (store : Option ConfigMapData) (t : String)
        (dsm : DeploymentStrategyMapping),
        getStrategyMappingForDeploymentType store t = .ok dsm →
        dsm.blobStorage ≠ "" ∧ dsm.smtpCredentials ≠ "" ∧
        dsm.redis ≠ "" ∧ dsm.postgres ≠ "") := by
  intro h
  have h2 := h (some [("managed", "\x7b\"blobstorage\":\"aws\"\x7d")]) "managed"
      ⟨"aws", "", "", ""⟩ rfl
  exact h2.2.1 rfl

/-- C6 (amended): the lookup succeeds exactly when the stored document for the
requested deployment type is a valid JSON object; fields missing from the
document decode to the empty string rather than failing. -/
theorem getStrategyMapping_ok_iff_validJson (store : Option ConfigMapData)
    (t : String) :
    (∃ dsm, getStrategyMappingForDeploymentType store t = .ok dsm) ↔
      (jsonObject? (mapIndex (getConfigMapOrDefault store buildDefaultConfigMap) t)).isSome := by
  unfold getStrategyMappingForDeploymentType unmarshalDeploymentStrategyMapping
  cases h : jsonObject? (mapIndex (getConfigMapOrDefault store buildDefaultConfigMap) t) <;>
    simp [h]

/-- Witness for `getStrategyMapping_ok_iff_validJson` at a concrete store. -/
theorem getStrategyMapping_ok_iff_validJson_witness :
    ∃ dsm, getStrategyMappingForDeploymentType
        (some [("managed", "\x7b\"blobstorage\":\"aws\"\x7d")]) "managed" = .ok dsm :=
  (getStrategyMapping_ok_iff_validJson
      (some [("managed", "\x7b\"blobstorage\":\"aws\"\x7d")]) "managed").mpr (by decide)

/-! ## Claims about provider naming and the azure stub -/

/-- C7 (counterexample): `SupportsStrategy` does not answer exactly for the
name advertised by `GetName` on every concrete provider — the azure Postgres
provider answers for `"azure"` while advertising
`"Azure Postgres Provider"`. -/
theorem supportsStrategy_getName_counterexample :
    ¬ (∀ s, azure.PostgresProviderSupportsStrategy s = true ↔
        s = azure.PostgresProviderGetName) := by
  intro h
  have h2 := (h "azure").mp (by decide)
  exact absurd h2 (by decide)

/-- C7 (amended): the AWS blob-storage provider's `SupportsStrategy` answers
exactly for its advertised `GetName`; the azure Postgres provider's
`SupportsStrategy` answers exactly for `"azure"`, which differs from its
`GetName`. -/
theorem supportsStrategy_matches_advertised_name :
    (∀ d, BlobStorageProviderSupportsStrategy d = true ↔
        d = BlobStorageProviderGetName) ∧
    (∀ s, azure.PostgresProviderSupportsStrategy s = true ↔ s = "azure") ∧
    azure.PostgresProviderGetName ≠ "azure" := by
  refine ⟨fun d => ?_, fun s => ?_, by decide⟩
  · simp [BlobStorageProviderSupportsStrategy, BlobStorageProviderGetName]
  · simp [azure.PostgresProviderSupportsStrategy]

/-- Witness for `supportsStrategy_matches_advertised_name` at `"aws"`. -/
theorem supportsStrategy_matches_advertised_name_witness :
    BlobStorageProviderSupportsStrategy "aws" = true :=
  (supportsStrategy_matches_advertised_name.1 "aws").mpr (by decide)

/-- C10: the azure `DeletePostgres` panics with "implement me" on every input
and never returns a status message or an error. -/
theorem azureDeletePostgres_panics (ps : azure.Postgres) :
    azure.PostgresProviderDeletePostgres ps = .panicked "implement me" ∧
    ∀ v, azure.PostgresProviderDeletePostgres ps ≠ .returned v :=
  ⟨rfl, fun _ h => azure.PanicOr.noConfusion h⟩

/-- Witness for `azureDeletePostgres_panics` at a concrete request. -/
theorem azureDeletePostgres_panics_witness :
    azure.PostgresProviderDeletePostgres ⟨"mydb", "ns1"⟩ =
      .panicked "implement me" :=
  (azureDeletePostgres_panics ⟨"mydb", "ns1"⟩).1

/-! ## Claims about the strategy config resolution -/

/-- C8: an empty region in the per-tier strategy payload resolves to the
provider default region; a non-empty region is kept verbatim and never
overridden. -/
theorem getS3BucketConfig_region_default (region raw : String)
    (cbi : CreateBucketInput)
    (h : unmarshalCreateBucketInput raw = .ok cbi) :
    getS3BucketConfig (.ok ⟨"", raw⟩) = .ok (cbi, ⟨DefaultRegion, raw⟩) ∧
    (region ≠ "" →
      getS3BucketConfig (.ok ⟨region, raw⟩) = .ok (cbi, ⟨region, raw⟩)) := by
  constructor
  · simp [getS3BucketConfig, h]
  · intro hr
    simp [getS3BucketConfig, hr, h]

/-- Witness for `getS3BucketConfig_region_default` at region `"eu-west-1"` and
the empty payload. -/
theorem getS3BucketConfig_region_default_witness :
    getS3BucketConfig (.ok ⟨"", "\x7b\x7d"⟩) =
        .ok (⟨none⟩, ⟨DefaultRegion, "\x7b\x7d"⟩) ∧
    getS3BucketConfig (.ok ⟨"eu-west-1", "\x7b\x7d"⟩) =
        .ok (⟨none⟩, ⟨"eu-west-1", "\x7b\x7d"⟩) := by
  have h := getS3BucketConfig_region_default "eu-west-1" "\x7b\x7d" ⟨none⟩ (by decide)
  exact ⟨h.1, h.2 (by decide)⟩

end CRO
